import Mathlib

/-!
Shallow embedding of `src/main.go` from the `aggregation-bits-repro`
repository: epoch/slot arithmetic, the committee-assignment snapshot,
the per-attestation aggregation-bitfield length check, and the plumbing
of `ListEpochBlocks`, `GetBeaconCommitees` and `main`.

Slots, epochs, committee indices and validator indices are Go `uint64`
values, modelled as `Nat` with explicit wrapping modulo `2 ^ 64` exactly
where the Go arithmetic wraps.  Go maps are modelled as association
lists with first-match lookup; a fresh binding is consed to the front,
which reproduces Go's overwrite-on-insert lookup semantics, and a
missing key yields the Go zero value (empty inner map / nil slice).
-/

namespace AggregationBitsRepro

/-- Chain parameter `SLOTS_PER_EPOCH` from src/main.go (line 18). -/
def SLOTS_PER_EPOCH : Nat := 32

/-- Modulus of the unsigned 64-bit slot/epoch arithmetic: `phase0.Slot` and
`phase0.Epoch` are Go `uint64`, so every arithmetic step wraps modulo `2 ^ 64`. -/
def U64 : Nat := 2 ^ 64

/-- `EpochLowestSlot` from src/main.go (lines 21-23):
`phase0.Slot(epoch * SLOTS_PER_EPOCH)` in wrapping `uint64` arithmetic. -/
def EpochLowestSlot (epoch : Nat) : Nat := (epoch * SLOTS_PER_EPOCH) % U64

/-- `EpochHighestSlot` from src/main.go (lines 25-27):
`phase0.Slot(((epoch + 1) * SLOTS_PER_EPOCH) - 1)`; the increment, the product
and the decrement each wrap modulo `2 ^ 64` (the decrement wraps to
`2 ^ 64 - 1` when the product is `0`). -/
def EpochHighestSlot (epoch : Nat) : Nat :=
  ((((epoch + 1) % U64) * SLOTS_PER_EPOCH) % U64 + (U64 - 1)) % U64

/-- The highest slot of an epoch is always exactly 31 above the lowest slot,
even where the `uint64` arithmetic wraps: the lowest slot is a multiple of 32
modulo `2 ^ 64`, hence at most `2 ^ 64 - 32`, so adding 31 never wraps. -/
theorem epochHighestSlot_eq (e : Nat) :
    EpochHighestSlot e = EpochLowestSlot e + 31 := by
  simp only [EpochHighestSlot, EpochLowestSlot, SLOTS_PER_EPOCH, U64]
  omega

/-- One attestation of a block body (`electra.Attestation` as used by
src/main.go): its claimed duty slot `attestation.Data.Slot`, the compact
committee-index selector `attestation.CommitteeBits` (a bitfield, here the
list of its bits, index 0 first), and the length
`attestation.AggregationBits.Len()` of its aggregation bitfield (the check
reads only the length, so only the length is modelled). -/
structure Attestation where
  dataSlot : Nat
  committeeBits : List Bool
  aggregationBitsLen : Nat
  deriving DecidableEq

/-- A proposed block as used by src/main.go: its slot `block.Message.Slot`
and the attestation list `block.Message.Body.Attestations`. -/
structure Block where
  slot : Nat
  attestations : List Attestation
  deriving DecidableEq

/-- One emitted length-mismatch report (the `log.Error()` line of
src/main.go line 143), carrying `attestation.Data.Slot`, `block.Message.Slot`,
the computed expected length and the actual aggregation-bitfield length. -/
structure DiscrepancyRecord where
  attestationSlot : Nat
  blockSlot : Nat
  computedLength : Nat
  actualLength : Nat
  deriving DecidableEq

/-- First-match lookup in an association list, modelling a Go map read:
`none` models the absent key (whose Go zero value the caller supplies). -/
def lookupKey {α : Type} : List (Nat × α) → Nat → Option α
  | [], _ => none
  | (k, v) :: rest, s => if s = k then some v else lookupKey rest s

/-- One duty slot's committee assignment,
Go `map[phase0.CommitteeIndex][]phase0.ValidatorIndex`. -/
abbrev Assignment := List (Nat × List Nat)

/-- The committee-assignment snapshot,
Go `map[phase0.Slot]map[phase0.CommitteeIndex][]phase0.ValidatorIndex`. -/
abbrev Committees := List (Nat × Assignment)

/-- Go read `committees[slot]`: a missing slot yields the nil inner map,
which behaves as the empty assignment. -/
def lookupSlot (c : Committees) (s : Nat) : Assignment :=
  match lookupKey c s with
  | some m => m
  | none => []

/-- Go read `len(assignment[idx])`: a missing committee index yields the nil
slice, whose length is `0`. -/
def assignmentLen (A : Assignment) (i : Nat) : Nat :=
  match lookupKey A i with
  | some v => v.length
  | none => 0

/-- `attestation.CommitteeBits.BitIndices()`: the positions of the set bits of
the committee-index selector, in ascending order. -/
def BitIndices (bits : List Bool) : List Nat :=
  (List.range bits.length).filter (fun i => bits.getD i false)

/-- The expected-length loop of src/main.go (lines 138-141): starting from
`committeesLen := 0`, add `len(committees[slot][committeeIndex])` for each
decoded committee index. -/
def expectedLength (A : Assignment) (bits : List Bool) : Nat :=
  (BitIndices bits).foldl (fun acc i => acc + assignmentLen A i) 0

/-- The duty-slot rule of src/main.go (line 127): `dutySlot := blockSlot - 1`
in wrapping `uint64` arithmetic (slot `0` wraps to `2 ^ 64 - 1`). -/
def dutySlot (blockSlot : Nat) : Nat := (blockSlot + (U64 - 1)) % U64

/-- The body of the attestation loop of src/main.go (lines 135-147) for one
attestation: attestations whose `Data.Slot` differs from the block's duty
slot are skipped; otherwise the expected length is computed from
`committees[attestation.Data.Slot]` and compared with the actual
aggregation-bitfield length, emitting a record exactly on mismatch. -/
def checkAttestation (c : Committees) (blockSlot ds : Nat) (a : Attestation) :
    Option DiscrepancyRecord :=
  if a.dataSlot = ds then
    let computed := expectedLength (lookupSlot c a.dataSlot) a.committeeBits
    if a.aggregationBitsLen ≠ computed then
      some ⟨a.dataSlot, blockSlot, computed, a.aggregationBitsLen⟩
    else
      none
  else
    none

/-- The per-block work of the main loop of src/main.go (lines 124-148):
compute the duty slot and run the attestation loop, collecting the emitted
records in attestation order. -/
def checkBlock (c : Committees) (b : Block) : List DiscrepancyRecord :=
  b.attestations.filterMap (checkAttestation c b.slot (dutySlot b.slot))

/-- The whole main loop of src/main.go (lines 124-149) over one enumeration
of the `epochBlocks` map: Go map iteration order is not specified, so the
enumeration order of the blocks is an explicit input here. -/
def checkRun (c : Committees) (blocks : List Block) : List DiscrepancyRecord :=
  blocks.flatMap (checkBlock c)

/-- The per-duty-slot summary statistic of src/main.go (lines 130-133):
total validator count over all committees of the slot (logged only,
independent of the per-attestation check). -/
def slotCommitteeTotal (c : Committees) (s : Nat) : Nat :=
  ((lookupSlot c s).map (fun p => p.2.length)).sum

/-- The inclusive slot iteration `for slot := low; slot <= high; slot++` of
`ListEpochBlocks` (src/main.go line 55): the visited slots in order, empty
when `low > high`. -/
def slotsFromTo (low high : Nat) : List Nat :=
  if low ≤ high then List.range' low (high + 1 - low) else []

/-- `ListEpochBlocks` from src/main.go (lines 51-71).  `fetch` abstracts
`GetBlock` (lines 29-49): `Except.error` is a retrieval failure (logged and
skipped, line 58-61), `Except.ok none` is a missed slot (skipped, lines
63-66), `Except.ok (some b)` stores the block under its slot.  The function
itself always succeeds (the Go function returns a nil error); the resulting
map is represented by its association list in slot order. -/
def ListEpochBlocks (fetch : Nat → Except String (Option Block)) (epoch : Nat) :
    List (Nat × Block) :=
  (slotsFromTo (EpochLowestSlot epoch) (EpochHighestSlot epoch)).filterMap fun s =>
    match fetch s with
    | .error _ => none
    | .ok none => none
    | .ok (some b) => some (s, b)

/-- One element of `resp.Data` in `GetBeaconCommitees` (src/main.go lines
86-94): a `(slot, committee index, validator list)` triple. -/
structure CommitteeEntry where
  slot : Nat
  index : Nat
  validators : List Nat
  deriving DecidableEq

/-- The insertion `result[committee.Slot][committee.Index] = committee.Validators`
of src/main.go (lines 86-94), on the association-list representation: the new
binding is consed to the front of both levels, so a first-match lookup sees
exactly the Go overwrite-on-insert semantics. -/
def insertCommittee (m : Committees) (e : CommitteeEntry) : Committees :=
  (e.slot, (e.index, e.validators) :: lookupSlot m e.slot) :: m

/-- The inclusive epoch iteration `for epoch := start; epoch <= end; epoch++`
of `GetBeaconCommitees` (src/main.go line 77): empty when `start > end`
(which happens in `main` for audited epoch `0`, where `epoch - 1` wraps to
`2 ^ 64 - 1`). -/
def epochsFromTo (start stop : Nat) : List Nat :=
  if start ≤ stop then List.range' start (stop + 1 - start) else []

/-- The epoch loop of `GetBeaconCommitees` (src/main.go lines 77-95): fetch
each epoch's committee list, return the fetch error as a hard error of the
whole call (lines 82-84), otherwise fold the entries into the accumulated
slot-keyed map. -/
def fetchCommitteeEpochs (fetch : Nat → Except String (List CommitteeEntry)) :
    List Nat → Committees → Except String Committees
  | [], acc => .ok acc
  | e :: rest, acc =>
    match fetch e with
    | .error err => .error err
    | .ok entries => fetchCommitteeEpochs fetch rest (entries.foldl insertCommittee acc)

/-- `GetBeaconCommitees` from src/main.go (lines 73-98), with the per-epoch
`BeaconCommittees` response abstracted by `fetch`. -/
def GetBeaconCommitees (fetch : Nat → Except String (List CommitteeEntry))
    (start stop : Nat) : Except String Committees :=
  fetchCommitteeEpochs fetch (epochsFromTo start stop) []

/-- How `main` uses the result of `GetBeaconCommitees` (src/main.go line 119):
the returned error is assigned to `err` but never checked, so on failure
`committees` is the nil map, whose every lookup yields the zero value — the
empty snapshot. -/
def mainCommittees (r : Except String Committees) : Committees :=
  match r with
  | .ok c => c
  | .error _ => []

/-- `main` from src/main.go (lines 112-149), with the two collaborator fetches
abstracted: list the epoch's blocks, fetch the committee assignment for
epochs `epoch - 1` (wrapping) through `epoch` discarding any error, then run
the per-block check over the block map in the given enumeration order (the
association list produced by `ListEpochBlocks`). -/
def runMain (blockFetch : Nat → Except String (Option Block))
    (committeeFetch : Nat → Except String (List CommitteeEntry))
    (epoch : Nat) : List DiscrepancyRecord :=
  let epochBlocks := ListEpochBlocks blockFetch epoch
  let committees := mainCommittees
    (GetBeaconCommitees committeeFetch ((epoch + (U64 - 1)) % U64) (epoch % U64))
  checkRun committees (epochBlocks.map Prod.snd)

/-- Folding additions of `f` over a list, starting from `n`, computes `n` plus
the sum of the mapped list. -/
theorem foldl_add_eq_sum (f : Nat → Nat) (l : List Nat) (n : Nat) :
    l.foldl (fun acc i => acc + f i) n = n + (l.map f).sum := by
  induction l generalizing n with
  | nil => simp
  | cons x xs ih =>
    simp only [List.foldl_cons, List.map_cons, List.sum_cons, ih]
    omega

/-- The expected-length loop computes the sum of the selected committees'
sizes. -/
theorem expectedLength_eq_sum (A : Assignment) (bits : List Bool) :
    expectedLength A bits = ((BitIndices bits).map (assignmentLen A)).sum := by
  simp [expectedLength, foldl_add_eq_sum]

/-- Against the empty (or nil) assignment snapshot every committee size is
zero, so the expected length is zero. -/
theorem expectedLength_nil (bits : List Bool) : expectedLength ([] : Assignment) bits = 0 := by
  rw [expectedLength_eq_sum]
  have h : assignmentLen ([] : Assignment) = fun _ => 0 := by
    funext i
    simp [assignmentLen, lookupKey]
  simp [h]

/-- C7: for every epoch `E`, `lowestSlot E = E * 32` and
`highestSlot E = lowestSlot (E + 1) - 1` (both in wrapping `uint64`
arithmetic), and the inclusive slot range of the epoch contains exactly 32
slots. -/
theorem C7_epoch_slot_range (e : Nat) :
    EpochLowestSlot e = (e * 32) % U64
    ∧ EpochHighestSlot e = (EpochLowestSlot (e + 1) + (U64 - 1)) % U64
    ∧ (Finset.Icc (EpochLowestSlot e) (EpochHighestSlot e)).card = 32 := by
  refine ⟨rfl, ?_, ?_⟩
  · simp only [EpochHighestSlot, EpochLowestSlot, SLOTS_PER_EPOCH, U64]
    omega
  · rw [Nat.card_Icc, epochHighestSlot_eq]
    omega

/-- C8: for every epoch value of the wrapping unsigned 64-bit epoch type, the
highest slot of the epoch is at least its lowest slot. -/
theorem C8_highest_ge_lowest (e : Nat) :
    EpochLowestSlot e ≤ EpochHighestSlot e := by
  rw [epochHighestSlot_eq]
  omega

/-- Witness for C7 at epoch 100. -/
theorem C7_epoch_slot_range_witness :
    EpochLowestSlot 100 = (100 * 32) % U64
    ∧ EpochHighestSlot 100 = (EpochLowestSlot 101 + (U64 - 1)) % U64
    ∧ (Finset.Icc (EpochLowestSlot 100) (EpochHighestSlot 100)).card = 32 :=
  C7_epoch_slot_range 100

/-- Witness for C8 at epoch 100. -/
theorem C8_highest_ge_lowest_witness :
    EpochLowestSlot 100 ≤ EpochHighestSlot 100 :=
  C8_highest_ge_lowest 100

/-- C4: the computed expected length equals the sum of the selected
committees' sizes taken in any order of the decoded indices; a committee
index absent from the assignment contributes zero instead of failing; and a
selector with zero set bits yields expected length `0` for every
assignment. -/
theorem C4_expected_length_sum :
    (∀ (A : Assignment) (bits : List Bool) (l : List Nat),
        l.Perm (BitIndices bits) →
        (l.map (assignmentLen A)).sum = expectedLength A bits)
    ∧ (∀ (A : Assignment) (i : Nat), lookupKey A i = none → assignmentLen A i = 0)
    ∧ (∀ (A : Assignment) (bits : List Bool), (∀ b ∈ bits, b = false) →
        expectedLength A bits = 0) := by
  refine ⟨?_, ?_, ?_⟩
  · intro A bits l h
    rw [expectedLength_eq_sum]
    exact (h.map (assignmentLen A)).sum_eq
  · intro A i h
    simp [assignmentLen, h]
  · intro A bits h
    have hnil : BitIndices bits = [] := by
      simp only [BitIndices]
      rw [List.filter_eq_nil_iff]
      intro i hi
      have hlt : i < bits.length := List.mem_range.mp hi
      have hb : bits[i] = false := h _ (List.getElem_mem hlt)
      simp [List.getD, List.getElem?_eq_getElem hlt, hb]
    simp [expectedLength, hnil]

/-- Witness for C4 at a concrete assignment, selector and reordered index
list. -/
theorem C4_expected_length_sum_witness :
    ([1, 0] : List Nat).Perm (BitIndices [true, true])
    ∧ (([1, 0].map (assignmentLen [(0, [5, 6]), (1, [7])])).sum
        = expectedLength [(0, [5, 6]), (1, [7])] [true, true]) := by
  have hp : ([1, 0] : List Nat).Perm (BitIndices [true, true]) := by decide
  exact ⟨hp, C4_expected_length_sum.1 [(0, [5, 6]), (1, [7])] [true, true] [1, 0] hp⟩

set_option maxRecDepth 8000 in
/-- C3: for an attestation whose data slot equals the block's duty slot, a
record is emitted exactly when the computed expected length differs from the
actual aggregation-bitfield length, carrying (duty slot, block slot, computed
length, actual length); on equality nothing is emitted.  In particular,
Scenario B — committee 0 of size 128 and committee 1 of size 64 at duty slot
3199, an attestation in the block at slot 3200 selecting both committees with
a bitfield of length 190 — emits exactly one record with computed length 192
and actual length 190. -/
theorem C3_mismatch_iff_record :
    (∀ (c : Committees) (bs : Nat) (a : Attestation),
        a.dataSlot = dutySlot bs →
        checkAttestation c bs (dutySlot bs) a =
          if a.aggregationBitsLen
              ≠ expectedLength (lookupSlot c a.dataSlot) a.committeeBits
          then some ⟨a.dataSlot, bs,
                 expectedLength (lookupSlot c a.dataSlot) a.committeeBits,
                 a.aggregationBitsLen⟩
          else none)
    ∧ checkBlock [(3199, [(0, List.range 128), (1, List.range 64)])]
        ⟨3200, [⟨3199, [true, true], 190⟩]⟩
        = [⟨3199, 3200, 192, 190⟩] := by
  constructor
  · intro c bs a h
    simp [checkAttestation, h]
  · decide

/-- Witness for C3 at a concrete committee snapshot and matching
attestation. -/
theorem C3_mismatch_iff_record_witness :
    (Attestation.dataSlot ⟨3199, [true], 7⟩ = dutySlot 3200)
    ∧ checkAttestation [] 3200 (dutySlot 3200) ⟨3199, [true], 7⟩ =
        (if (7 : Nat) ≠ expectedLength (lookupSlot [] 3199) [true]
         then some ⟨3199, 3200, expectedLength (lookupSlot [] 3199) [true], 7⟩
         else none) := by
  refine ⟨by decide, ?_⟩
  exact C3_mismatch_iff_record.1 [] 3200 ⟨3199, [true], 7⟩ (by decide)

/-- C6: an attestation whose data slot differs from the block's duty slot is
excluded from the block's check: its own check yields nothing, and removing
it from the block's attestation list leaves the emitted records unchanged. -/
theorem C6_mismatched_data_slot_excluded
    (c : Committees) (bs : Nat) (a : Attestation) (l1 l2 : List Attestation)
    (h : a.dataSlot ≠ dutySlot bs) :
    checkAttestation c bs (dutySlot bs) a = none
    ∧ checkBlock c ⟨bs, l1 ++ a :: l2⟩ = checkBlock c ⟨bs, l1 ++ l2⟩ := by
  have hnone : checkAttestation c bs (dutySlot bs) a = none := by
    simp [checkAttestation, h]
  refine ⟨hnone, ?_⟩
  show (l1 ++ a :: l2).filterMap (checkAttestation c bs (dutySlot bs))
      = (l1 ++ l2).filterMap (checkAttestation c bs (dutySlot bs))
  simp [List.filterMap_append, List.filterMap_cons, hnone]

/-- Witness for C6 at a concrete block and non-matching attestation. -/
theorem C6_mismatched_data_slot_excluded_witness :
    (Attestation.dataSlot ⟨5, [true], 7⟩ ≠ dutySlot 3200)
    ∧ checkAttestation [] 3200 (dutySlot 3200) ⟨5, [true], 7⟩ = none
    ∧ checkBlock [] ⟨3200, [⟨5, [true], 7⟩]⟩ = checkBlock [] ⟨3200, []⟩ := by
  refine ⟨by decide, ?_, ?_⟩
  · exact (C6_mismatched_data_slot_excluded [] 3200 ⟨5, [true], 7⟩ [] [] (by decide)).1
  · exact (C6_mismatched_data_slot_excluded [] 3200 ⟨5, [true], 7⟩ [] [] (by decide)).2

/-- C10: a block at slot 0 gets duty slot `2 ^ 64 - 1` through the wrapping
subtraction; when the snapshot has no entry for that wrapped slot, the
expected length degrades to zero, an attestation claiming data slot
`2 ^ 64 - 1` is still compared (emitting a record whenever its bitfield
length is nonzero), and any attestation with a different data slot is
skipped. -/
theorem C10_slot_zero_wraps :
    dutySlot 0 = U64 - 1
    ∧ ∀ (c : Committees) (a : Attestation), lookupKey c (U64 - 1) = none →
        (a.dataSlot = U64 - 1 →
          checkAttestation c 0 (dutySlot 0) a =
            if a.aggregationBitsLen ≠ 0
            then some ⟨U64 - 1, 0, 0, a.aggregationBitsLen⟩
            else none)
        ∧ (a.dataSlot ≠ U64 - 1 → checkAttestation c 0 (dutySlot 0) a = none) := by
  have hd : dutySlot 0 = U64 - 1 := by decide
  refine ⟨hd, ?_⟩
  intro c a hnone
  have hslot : lookupSlot c (U64 - 1) = [] := by
    simp [lookupSlot, hnone]
  constructor
  · intro ha
    simp [checkAttestation, hd, ha, hslot, expectedLength_nil]
  · intro ha
    simp [checkAttestation, hd, ha]

/-- Witness for C10 at a concrete snapshot without the wrapped slot and a
concrete attestation claiming data slot `2 ^ 64 - 1`. -/
theorem C10_slot_zero_wraps_witness :
    lookupKey ([(5, [(0, [1])])] : Committees) (U64 - 1) = none
    ∧ checkAttestation [(5, [(0, [1])])] 0 (dutySlot 0) ⟨U64 - 1, [true], 3⟩ =
        (if (3 : Nat) ≠ 0 then some ⟨U64 - 1, 0, 0, 3⟩ else none) := by
  have h : lookupKey ([(5, [(0, [1])])] : Committees) (U64 - 1) = none := by decide
  exact ⟨h, (C10_slot_zero_wraps.2 [(5, [(0, [1])])] ⟨U64 - 1, [true], 3⟩ h).1 rfl⟩

/-- C9: a slot whose fetch reports a missed slot contributes no entry to the
epoch's block map and raises no error (the map is still produced), and every
other slot in the epoch's range whose fetch returns a block still appears in
the map. -/
theorem C9_missed_slot_skipped
    (fetch : Nat → Except String (Option Block)) (e s : Nat)
    (hs : fetch s = .ok none) :
    (∀ b : Block, (s, b) ∉ ListEpochBlocks fetch e)
    ∧ (∀ (t : Nat) (b : Block), fetch t = .ok (some b) →
        t ∈ slotsFromTo (EpochLowestSlot e) (EpochHighestSlot e) →
        (t, b) ∈ ListEpochBlocks fetch e) := by
  constructor
  · intro b hb
    obtain ⟨t, ht, hmap⟩ := List.mem_filterMap.mp hb
    revert hmap
    cases hfetch : fetch t with
    | error err => intro hmap; simp at hmap
    | ok ob =>
      cases ob with
      | none => intro hmap; simp at hmap
      | some b2 =>
        intro hmap
        simp only [Option.some.injEq, Prod.mk.injEq] at hmap
        obtain ⟨h1, h2⟩ := hmap
        subst h1
        rw [hs] at hfetch
        simp at hfetch
  · intro t b hfetch hmem
    exact List.mem_filterMap.mpr ⟨t, hmem, by rw [hfetch]⟩

/-- Witness for C9: auditing epoch 100, slot 3205 is missed and absent from
the block map while the block fetched at slot 3200 is present. -/
theorem C9_missed_slot_skipped_witness :
    ((fun t => if t = 3200 then .ok (some ⟨3200, []⟩) else .ok none :
        Nat → Except String (Option Block)) 3205 = .ok none)
    ∧ ((3205, (⟨3205, []⟩ : Block)) ∉
        ListEpochBlocks
          (fun t => if t = 3200 then .ok (some ⟨3200, []⟩) else .ok none) 100)
    ∧ ((3200, (⟨3200, []⟩ : Block)) ∈
        ListEpochBlocks
          (fun t => if t = 3200 then .ok (some ⟨3200, []⟩) else .ok none) 100) := by
  refine ⟨rfl, ?_, ?_⟩
  · exact (C9_missed_slot_skipped
      (fun t => if t = 3200 then .ok (some ⟨3200, []⟩) else .ok none)
      100 3205 rfl).1 ⟨3205, []⟩
  · exact (C9_missed_slot_skipped
      (fun t => if t = 3200 then .ok (some ⟨3200, []⟩) else .ok none)
      100 3205 rfl).2 3200 ⟨3200, []⟩ rfl (by decide)

/-- C2 as stated is false on the code: `main` ranges over the `epochBlocks`
Go map, whose iteration order is not specified (and is randomized by the Go
runtime), so two runs on the same two-block snapshot — two enumerations of
the same map, here a permutation pair — can produce the two discrepancy
records in different orders. -/
theorem C2_order_counterexample :
    ([(⟨10, [⟨9, [true], 5⟩]⟩ : Block), ⟨20, [⟨19, [true], 7⟩]⟩]).Perm
      [⟨20, [⟨19, [true], 7⟩]⟩, ⟨10, [⟨9, [true], 5⟩]⟩]
    ∧ checkRun [] [⟨10, [⟨9, [true], 5⟩]⟩, ⟨20, [⟨19, [true], 7⟩]⟩]
        ≠ checkRun [] [⟨20, [⟨19, [true], 7⟩]⟩, ⟨10, [⟨9, [true], 5⟩]⟩] := by
  constructor
  · exact List.Perm.swap _ _ []
  · decide

/-- C2 amended: re-running the checker on identical block and assignment
snapshots yields the same multiset of discrepancy records — any two
enumeration orders of the block map produce permutations of each other —
and for a fixed enumeration order the output sequence is identical; the
order across runs is only as stable as Go's unspecified map iteration
order. -/
theorem C2_records_perm_stable
    (c : Committees) (bs1 bs2 : List Block) (h : bs1.Perm bs2) :
    (checkRun c bs1).Perm (checkRun c bs2) :=
  h.flatMap_right (checkBlock c)

/-- Witness for C2's amended claim on a concrete two-block permutation
pair. -/
theorem C2_records_perm_stable_witness :
    ([(⟨30, [⟨29, [true], 4⟩]⟩ : Block), ⟨40, [⟨39, [true], 6⟩]⟩]).Perm
      [⟨40, [⟨39, [true], 6⟩]⟩, ⟨30, [⟨29, [true], 4⟩]⟩]
    ∧ (checkRun [] [⟨30, [⟨29, [true], 4⟩]⟩, ⟨40, [⟨39, [true], 6⟩]⟩]).Perm
        (checkRun [] [⟨40, [⟨39, [true], 6⟩]⟩, ⟨30, [⟨29, [true], 4⟩]⟩]) :=
  ⟨List.Perm.swap _ _ [],
   C2_records_perm_stable [] _ _ (List.Perm.swap _ _ [])⟩

set_option maxRecDepth 8000 in
/-- C1 fails on the code: `main` assigns the error returned by
`GetBeaconCommitees` to `err` (src/main.go line 119) but never checks it, so
when the committee-assignment fetch reports a hard error the audit does not
abort; it proceeds with the nil committee map and still performs the
per-attestation comparison, here emitting a discrepancy record with computed
length 0 for the attestation at duty slot 3199. -/
theorem C1_fetch_error_still_checks :
    runMain
      (fun s => if s = 3200 then .ok (some ⟨3200, [⟨3199, [true], 5⟩]⟩)
                else .ok none)
      (fun _ => .error "assignment fetch failed")
      100
      = [⟨3199, 3200, 0, 5⟩] := by
  decide

/-- Effect of one `GetBeaconCommitees` insertion on a two-level lookup: the
inserted `(slot, index)` pair now maps to the inserted validators, every other
pair is unchanged. -/
theorem lookup_insert (m : Committees) (en : CommitteeEntry) (s i : Nat) :
    lookupKey (lookupSlot (insertCommittee m en) s) i =
      if s = en.slot ∧ i = en.index then some en.validators
      else lookupKey (lookupSlot m s) i := by
  by_cases hs : s = en.slot
  · subst hs
    by_cases hi : i = en.index
    · subst hi
      simp [insertCommittee, lookupSlot, lookupKey]
    · simp [insertCommittee, lookupSlot, lookupKey, hi]
  · simp [insertCommittee, lookupSlot, lookupKey, hs]

/-- Folding a list of committee entries into a snapshot resolves `(s, i)` to
`v` provided every entry for `(s, i)` in the list carries `v`, and either some
entry for `(s, i)` occurs in the list or the accumulator already resolves
`(s, i)` to `v`. -/
theorem foldl_insert_lookup :
    ∀ (entries : List CommitteeEntry) (m : Committees) (s i : Nat) (v : List Nat),
      (∀ en ∈ entries, en.slot = s → en.index = i → en.validators = v) →
      ((∃ en ∈ entries, en.slot = s ∧ en.index = i)
        ∨ lookupKey (lookupSlot m s) i = some v) →
      lookupKey (lookupSlot (entries.foldl insertCommittee m) s) i = some v := by
  intro entries
  induction entries with
  | nil =>
    intro m s i v hall hbase
    simp only [List.foldl_nil]
    rcases hbase with ⟨en, hmem, _⟩ | hv
    · simp at hmem
    · exact hv
  | cons en rest ih =>
    intro m s i v hall hbase
    simp only [List.foldl_cons]
    refine ih (insertCommittee m en) s i v ?_ ?_
    · intro e he hs2 hi2
      exact hall e (List.mem_cons_of_mem _ he) hs2 hi2
    · by_cases hcase : en.slot = s ∧ en.index = i
      · refine Or.inr ?_
        rw [lookup_insert, if_pos ⟨hcase.1.symm, hcase.2.symm⟩,
          hall en (List.mem_cons_self _ _) hcase.1 hcase.2]
      · rcases hbase with ⟨e, he, hes, hei⟩ | hv
        · rcases List.mem_cons.mp he with heq | he2
          · exact absurd ⟨heq ▸ hes, heq ▸ hei⟩ hcase
          · exact Or.inl ⟨e, he2, hes, hei⟩
        · refine Or.inr ?_
          rw [lookup_insert, if_neg (fun hx => hcase ⟨hx.1.symm, hx.2.symm⟩)]
          exact hv

/-- C5: for a block at the lowest slot of an audited epoch `e ≥ 1` (with the
whole two-epoch window representable without wrapping), the duty slot is the
highest slot of the previous epoch and lies strictly inside that previous
epoch's range; the checker's assignment lookup for that block is keyed purely
by that slot; and the snapshot built by `GetBeaconCommitees` over epochs
`e - 1` and `e` resolves a committee reported under the previous epoch at
that slot. -/
theorem C5_epoch_boundary_duty_slot (e : Nat) (h1 : 1 ≤ e) (h2 : e < 2 ^ 59) :
    dutySlot (EpochLowestSlot e) = EpochHighestSlot (e - 1)
    ∧ EpochLowestSlot (e - 1) ≤ EpochHighestSlot (e - 1)
    ∧ EpochHighestSlot (e - 1) < EpochLowestSlot e
    ∧ (∀ (c : Committees) (atts : List Attestation),
        checkBlock c ⟨EpochLowestSlot e, atts⟩
          = atts.filterMap
              (checkAttestation c (EpochLowestSlot e) (EpochHighestSlot (e - 1))))
    ∧ (∀ (fetch : Nat → Except String (List CommitteeEntry))
          (prev cur : List CommitteeEntry) (c : Committees) (i : Nat) (v : List Nat),
        fetch (e - 1) = .ok prev → fetch e = .ok cur →
        GetBeaconCommitees fetch (e - 1) e = .ok c →
        (∃ en ∈ prev, en.slot = EpochHighestSlot (e - 1) ∧ en.index = i) →
        (∀ en ∈ prev, en.slot = EpochHighestSlot (e - 1) → en.index = i →
          en.validators = v) →
        (∀ en ∈ cur, en.slot = EpochHighestSlot (e - 1) → en.index = i →
          en.validators = v) →
        lookupKey (lookupSlot c (EpochHighestSlot (e - 1))) i = some v) := by
  have hduty : dutySlot (EpochLowestSlot e) = EpochHighestSlot (e - 1) := by
    simp only [dutySlot, EpochLowestSlot, EpochHighestSlot, SLOTS_PER_EPOCH, U64]
    omega
  refine ⟨hduty, ?_, ?_, ?_, ?_⟩
  · rw [epochHighestSlot_eq]; omega
  · rw [epochHighestSlot_eq]
    simp only [EpochLowestSlot, SLOTS_PER_EPOCH, U64]
    omega
  · intro c atts
    show atts.filterMap
        (checkAttestation c (EpochLowestSlot e) (dutySlot (EpochLowestSlot e))) = _
    rw [hduty]
  · intro fetch prev cur c i v hprev hcur hres hex hallp hallc
    have hrange : epochsFromTo (e - 1) e = [e - 1, e] := by
      have hle : e - 1 ≤ e := by omega
      have hlen : e + 1 - (e - 1) = 2 := by omega
      have hsucc : e - 1 + 1 = e := by omega
      simp [epochsFromTo, hle, hlen, List.range', hsucc]
    have hc : c = cur.foldl insertCommittee (prev.foldl insertCommittee []) := by
      rw [GetBeaconCommitees, hrange] at hres
      simp only [fetchCommitteeEpochs, hprev, hcur] at hres
      exact (Except.ok.inj hres).symm
    subst hc
    exact foldl_insert_lookup cur (prev.foldl insertCommittee [])
      (EpochHighestSlot (e - 1)) i v hallc
      (Or.inr (foldl_insert_lookup prev [] (EpochHighestSlot (e - 1)) i v hallp
        (Or.inl hex)))

/-- Witness for C5 at epoch 100: duty slot 3199 of the block at slot 3200 is
resolved from the committee entry fetched under epoch 99. -/
theorem C5_epoch_boundary_duty_slot_witness :
    dutySlot (EpochLowestSlot 100) = EpochHighestSlot 99
    ∧ lookupKey (lookupSlot [(3199, [(0, [1, 2, 3])])] (EpochHighestSlot 99)) 0
        = some [1, 2, 3] := by
  have h := C5_epoch_boundary_duty_slot 100 (by decide) (by decide)
  refine ⟨h.1, ?_⟩
  exact h.2.2.2.2
    (fun t => if t = 99 then .ok [⟨3199, 0, [1, 2, 3]⟩] else .ok [])
    [⟨3199, 0, [1, 2, 3]⟩] [] [(3199, [(0, [1, 2, 3])])] 0 [1, 2, 3]
    rfl rfl rfl
    ⟨⟨3199, 0, [1, 2, 3]⟩, by decide, by decide, by decide⟩
    (by decide) (by decide)

end AggregationBitsRepro
